import Mathlib

/-!
Shallow embedding of the JSON-RPC read-endpoint layer of starknet-devnet
(crates/starknet-server/src/api/json_rpc/endpoints.rs), together with a
model of the external ledger backend it delegates to.  Each endpoint of
the `JsonRpcHandler` impl block becomes a Lean function taking the
backend as an explicit argument; internal and public error unions become
inductives with the variants the code names plus a catch-all for the
wildcard arms.
-/

/-- A field element; the base scalar for addresses, hashes, keys, values. -/
abbrev Felt := Nat

/-- Wire wrapper: a felt rendered as canonical hex (models `FeltHex`). -/
structure FeltHex where
  val : Felt
deriving DecidableEq, Repr

/-- Wire wrapper: a contract address rendered as canonical hex (models `ContractAddressHex`). -/
structure ContractAddressHex where
  val : Felt
deriving DecidableEq, Repr

/-- Wire wrapper: a Patricia storage key rendered as canonical hex (models `PatriciaKeyHex`). -/
structure PatriciaKeyHex where
  val : Felt
deriving DecidableEq, Repr

/-- `starknet_in_rust::utils::Address`, the address type in backend errors. -/
structure Address where
  val : Felt
deriving DecidableEq, Repr

/-- Block identifier: latest, pending, by hash, or by number. -/
inductive BlockId where
  | latest
  | pending
  | byHash (h : Felt)
  | byNumber (n : Nat)
deriving DecidableEq, Repr

/-- `starknet_in_rust` state errors: the variant the code matches on
(`NoneContractState`) plus a catch-all for the rest of that union. -/
inductive StateError where
  | NoneContractState (a : Address)
  | OtherState
deriving DecidableEq, Repr

/-- `starknet_in_rust` transaction errors: the `State` variant the code
matches on plus a catch-all for the rest of that union. -/
inductive TransactionError where
  | State (e : StateError)
  | OtherTransaction
deriving DecidableEq, Repr

/-- `starknet_core::error::Error`: the variants the endpoint code matches
on by name plus a catch-all for every other variant of that union. -/
inductive Error where
  | NoBlock
  | TransactionError (e : TransactionError)
  | BlockIdHashUnimplementedError
  | BlockIdNumberUnimplementedError
  | OtherError
deriving DecidableEq, Repr

/-- The closed public error vocabulary (`api::json_rpc::error::ApiError`),
restricted to the variants reachable from the read endpoints. -/
inductive ApiError where
  | BlockNotFound
  | ContractNotFound
  | TransactionNotFound
  | InvalidTransactionIndexInBlock
  | NoBlocks
  | ContractError
  | OnlyLatestBlock
  | InvalidContinuationToken
  | StarknetDevnetError (e : Error)
deriving DecidableEq, Repr

/-- The raw state update the backend returns from `block_state_update`:
per-category change sets, with the backend map enumeration order made
explicit as lists. -/
structure StateUpdateRaw where
  block_hash : Felt
  new_root : Felt
  old_root : Felt
  deployed_contracts : List (Felt × Felt)
  declared_classes : List (Felt × Felt)
  cairo_0_declared_classes : List Felt
  nonces : List (Felt × Felt)
  storage_updates : List (Felt × List (Felt × Felt))
deriving DecidableEq, Repr

/-- Wire model `DeployedContract`: address wrapped, class hash kept raw. -/
structure DeployedContract where
  address : ContractAddressHex
  class_hash : Felt
deriving DecidableEq, Repr

/-- Wire model `ClassHashes`: class hash raw, compiled class hash wrapped. -/
structure ClassHashes where
  class_hash : Felt
  compiled_class_hash : FeltHex
deriving DecidableEq, Repr

/-- Wire model `ContractNonce`. -/
structure ContractNonce where
  contract_address : ContractAddressHex
  nonce : Felt
deriving DecidableEq, Repr

/-- Wire model `StorageEntry`. -/
structure StorageEntry where
  key : PatriciaKeyHex
  value : FeltHex
deriving DecidableEq, Repr

/-- Wire model `StorageDiff`: one address with its changed entries. -/
structure StorageDiff where
  address : ContractAddressHex
  storage_entries : List StorageEntry
deriving DecidableEq, Repr

/-- Wire model `ThinStateDiff`. -/
structure ThinStateDiff where
  deployed_contracts : List DeployedContract
  declared_classes : List ClassHashes
  deprecated_declared_classes : List Felt
  nonces : List ContractNonce
  storage_diffs : List StorageDiff
  replaced_classes : List DeployedContract
deriving DecidableEq, Repr

/-- Wire model `StateUpdate`. -/
structure StateUpdate where
  block_hash : FeltHex
  new_root : FeltHex
  old_root : FeltHex
  state_diff : ThinStateDiff
deriving DecidableEq, Repr

/-- Placeholder payload types for the stub endpoints (their success types
never carry a value in this slice). -/
structure Block where
deriving DecidableEq, Repr

/-- Placeholder for `TransactionWithType`. -/
structure TransactionWithType where
deriving DecidableEq, Repr

/-- Placeholder for `TransactionReceipt`. -/
structure TransactionReceipt where
deriving DecidableEq, Repr

/-- Placeholder for `EstimateFeeOutput`. -/
structure EstimateFeeOutput where
deriving DecidableEq, Repr

/-- Placeholder for `BlockHashAndNumberOutput`. -/
structure BlockHashAndNumberOutput where
deriving DecidableEq, Repr

/-- Placeholder for `Transaction`. -/
structure Transaction where
deriving DecidableEq, Repr

/-- Placeholder for `EventsChunk`. -/
structure EventsChunk where
deriving DecidableEq, Repr

/-- Placeholder for `EventFilter`. -/
structure EventFilter where
deriving DecidableEq, Repr

/-- Placeholder for `BroadcastedTransactionWithType`. -/
structure BroadcastedTransactionWithType where
deriving DecidableEq, Repr

/-- `FunctionCall`: the request payload of `starknet_call`. -/
structure FunctionCall where
  contract_address : ContractAddressHex
  entry_point_selector : Felt
  calldata : List Felt
deriving DecidableEq, Repr

/-- `SyncingOutput`: the devnet only ever builds the `False` variant. -/
inductive SyncingOutput where
  | False (b : Bool)
  | Status
deriving DecidableEq, Repr

/-- Raw contract class as held by the backend (polymorphic over legacy
and Sierra representations; content irrelevant to the claims). -/
structure ContractClassRaw where
  tag : Nat
deriving DecidableEq, Repr

/-- The external ledger backend (`starknet_core::Starknet`): snapshot
lookups keyed by a block identifier, a chain id and a block number.  The
endpoint layer only observes it through these operations. -/
structure Backend where
  block_state_update : BlockId → Except Error StateUpdateRaw
  get_block_txs_count : BlockId → Except Error Nat
  call : BlockId → Address → Felt → List Felt → Except Error (List Felt)
  get_class : BlockId → Felt → Except Error ContractClassRaw
  get_class_at : BlockId → Felt → Except Error ContractClassRaw
  get_class_hash_at : BlockId → Felt → Except Error Felt
  block_number : Nat
  chain_id : Felt

/-- `RpcResult<T>` of the endpoint layer. -/
abbrev RpcResult (α : Type) := Except ApiError α

/-- starknet_getBlockWithTxHashes: stub, always `BlockNotFound`. -/
def get_block_with_tx_hashes (_b : Backend) (_block_id : BlockId) : RpcResult Block :=
  .error .BlockNotFound

/-- starknet_getBlockWithTxs: stub, always `BlockNotFound`. -/
def get_block_with_full_txs (_b : Backend) (_block_id : BlockId) : RpcResult Block :=
  .error .BlockNotFound

/-- starknet_getStateUpdate: resolves the backend raw update, maps
`NoBlock` to `BlockNotFound` and any other backend error to
`StarknetDevnetError`, then rebuilds the wire `StateUpdate` category by
category in backend enumeration order, wrapping each felt in its hex
wrapper; `replaced_classes` is emitted as the empty vector. -/
def get_state_update (b : Backend) (block_id : BlockId) : RpcResult StateUpdate :=
  match b.block_state_update block_id with
  | .error .NoBlock => .error .BlockNotFound
  | .error e => .error (.StarknetDevnetError e)
  | .ok su =>
    .ok
      { block_hash := ⟨su.block_hash⟩
        new_root := ⟨su.new_root⟩
        old_root := ⟨su.old_root⟩
        state_diff :=
          { deployed_contracts := su.deployed_contracts.map fun p =>
              { address := ⟨p.1⟩, class_hash := p.2 }
            declared_classes := su.declared_classes.map fun p =>
              { class_hash := p.1, compiled_class_hash := ⟨p.2⟩ }
            deprecated_declared_classes := su.cairo_0_declared_classes
            nonces := su.nonces.map fun p =>
              { contract_address := ⟨p.1⟩, nonce := p.2 }
            storage_diffs := su.storage_updates.map fun p =>
              { address := ⟨p.1⟩
                storage_entries := p.2.map fun kv =>
                  { key := ⟨kv.1⟩, value := ⟨kv.2⟩ } }
            replaced_classes := [] } }

/-- starknet_getStorageAt: stub, always `ContractNotFound`. -/
def get_storage_at (_b : Backend) (_contract_address : ContractAddressHex)
    (_key : PatriciaKeyHex) (_block_id : BlockId) : RpcResult PatriciaKeyHex :=
  .error .ContractNotFound

/-- starknet_getTransactionByHash: stub, always `TransactionNotFound`. -/
def get_transaction_by_hash (_b : Backend) (_transaction_hash : Felt) :
    RpcResult TransactionWithType :=
  .error .TransactionNotFound

/-- starknet_getTransactionByBlockIdAndIndex: stub, always
`InvalidTransactionIndexInBlock`. -/
def get_transaction_by_block_id_and_index (_b : Backend) (_block_id : BlockId)
    (_index : Nat) : RpcResult TransactionWithType :=
  .error .InvalidTransactionIndexInBlock

/-- starknet_getTransactionReceipt: stub, always `TransactionNotFound`. -/
def get_transaction_receipt_by_hash (_b : Backend) (_transaction_hash : Felt) :
    RpcResult TransactionReceipt :=
  .error .TransactionNotFound

/-- starknet_getBlockTransactionCount: backend count on success, the
`NoBlocks` error on any backend failure. -/
def get_block_txs_count (b : Backend) (block_id : BlockId) : RpcResult Nat :=
  match b.get_block_txs_count block_id with
  | .ok count => .ok count
  | .error _ => .error .NoBlocks

/-- starknet_call: delegates to the backend; `NoneContractState` becomes
`ContractNotFound`, the two unimplemented-block-id errors become
`OnlyLatestBlock`, any other failure becomes the generic `ContractError`;
a success vector is returned with each felt wrapped. -/
def call (b : Backend) (block_id : BlockId) (request : FunctionCall) :
    RpcResult (List FeltHex) :=
  match b.call block_id ⟨request.contract_address.val⟩ request.entry_point_selector
      request.calldata with
  | .ok result => .ok (result.map FeltHex.mk)
  | .error (.TransactionError (.State (.NoneContractState _))) =>
    .error .ContractNotFound
  | .error .BlockIdHashUnimplementedError => .error .OnlyLatestBlock
  | .error .BlockIdNumberUnimplementedError => .error .OnlyLatestBlock
  | .error _ => .error .ContractError

/-- starknet_estimateFee: stub, always `ContractError`. -/
def estimate_fee (_b : Backend) (_block_id : BlockId)
    (_request : List BroadcastedTransactionWithType) :
    RpcResult (List EstimateFeeOutput) :=
  .error .ContractError

/-- starknet_blockNumber: the backend block number, always a success. -/
def block_number (b : Backend) : RpcResult Nat :=
  .ok b.block_number

/-- starknet_blockHashAndNumber: stub, always `NoBlocks`. -/
def block_hash_and_number (_b : Backend) : RpcResult BlockHashAndNumberOutput :=
  .error .NoBlocks

/-- Hex digit character for a value below 16 (lowercase letters). -/
def hexChar (n : Nat) : Char :=
  if n < 10 then Char.ofNat (48 + n) else Char.ofNat (87 + n)

/-- Modelled from the spec: big-endian hex digits of a natural number
with no superfluous leading zeros (the canonical encoder of
`starknet_types::traits::ToHexString`, which is not part of src). -/
def hexDigits (n : Nat) : List Char :=
  if _h : n < 16 then [hexChar n]
  else hexDigits (n / 16) ++ [hexChar (n % 16)]
decreasing_by
  simp_wf
  omega

/-- Modelled from the spec: the canonical wire form of a felt, a
`0x`-prefixed lowercase hexadecimal string (`to_prefixed_hex_str` of
`starknet_types`, which is not part of src). -/
def toPrefixedHexStr (n : Felt) : String :=
  "0x" ++ String.mk (hexDigits n)

/-- starknet_chainId: the configured chain id rendered as a 0x-prefixed
hex string, always a success. -/
def chain_id (b : Backend) : RpcResult String :=
  .ok (toPrefixedHexStr b.chain_id)

/-- starknet_pendingTransactions: always the empty sequence, a success. -/
def pending_transactions (_b : Backend) : RpcResult (List Transaction) :=
  .ok []

/-- starknet_syncing: always the `False` variant carrying `false`. -/
def syncing (_b : Backend) : RpcResult SyncingOutput :=
  .ok (.False false)

/-- starknet_getEvents: stub, always `InvalidContinuationToken`. -/
def get_events (_b : Backend) (_filter : EventFilter) : RpcResult EventsChunk :=
  .error .InvalidContinuationToken

/-- starknet_getNonce: stub, always `BlockNotFound`. -/
def get_nonce (_b : Backend) (_block_id : BlockId)
    (_contract_address : ContractAddressHex) : RpcResult FeltHex :=
  .error .BlockNotFound

/-- Whether an `Except` value is a success. -/
def exceptIsOk {ε α : Type} : Except ε α → Bool
  | .ok _ => true
  | .error _ => false

/-- The catalog of read endpoints of the `JsonRpcHandler` impl block. -/
inductive Endpoint where
  | getBlockWithTxHashes
  | getBlockWithFullTxs
  | getStateUpdate
  | getStorageAt
  | getTransactionByHash
  | getTransactionByBlockIdAndIndex
  | getTransactionReceiptByHash
  | getClass
  | getClassAt
  | getClassHashAt
  | getBlockTxsCount
  | call
  | estimateFee
  | blockNumber
  | blockHashAndNumber
  | chainId
  | pendingTransactions
  | syncing
  | getEvents
  | getNonce
deriving DecidableEq, Repr

/-- The mode of access to the shared ledger lock. -/
inductive LockAccess where
  | shared
  | exclusive
  | noLock
deriving DecidableEq, Repr

/-- How each endpoint body acquires the `self.api.starknet` reader-writer
lock: `.read()` becomes `shared`, `.write()` becomes `exclusive`, and the
stub bodies that never touch the lock become `noLock` (read off the
source of each handler). -/
def lockAccess : Endpoint → LockAccess
  | .getBlockWithTxHashes => .noLock
  | .getBlockWithFullTxs => .noLock
  | .getStateUpdate => .shared
  | .getStorageAt => .noLock
  | .getTransactionByHash => .noLock
  | .getTransactionByBlockIdAndIndex => .noLock
  | .getTransactionReceiptByHash => .noLock
  | .getClass => .exclusive
  | .getClassAt => .exclusive
  | .getClassHashAt => .exclusive
  | .getBlockTxsCount => .shared
  | .call => .shared
  | .estimateFee => .noLock
  | .blockNumber => .shared
  | .blockHashAndNumber => .noLock
  | .chainId => .shared
  | .pendingTransactions => .noLock
  | .syncing => .noLock
  | .getEvents => .noLock
  | .getNonce => .noLock

/-- Modelled from the spec: the state of the asynchronous reader-writer
lock owned by StateFacade (a tokio `RwLock`, not part of src): idle, held
by some positive number of shared readers, or held by one exclusive
writer. -/
inductive LockState where
  | idle
  | sharedRead (n : Nat)
  | exclusiveWrite
deriving DecidableEq, Repr

/-- Modelled from the spec: whether a query with the given access mode
may enter while the lock is in the given state — an exclusive holder
excludes everyone, shared holders admit further shared holders, and an
endpoint that never touches the lock is never blocked. -/
def canAcquire : LockState → LockAccess → Bool
  | _, .noLock => true
  | .idle, _ => true
  | .sharedRead _, .shared => true
  | .sharedRead _, .exclusive => false
  | .exclusiveWrite, _ => false

/-- Modelled from the spec: the compiled-artifact cache the `get_class*`
queries may lazily materialize (owned by `starknet_core`, not part of
src), as an association list from class hash to compiled artifact. -/
abbrev ClassCache (α : Type) := List (Felt × α)

/-- Modelled from the spec: one serialized `get_class` execution — return
the cached artifact when present, otherwise compile it once and insert
it; the second component records whether compilation work was done. -/
def getClassOnce {α : Type} (compile : Felt → α) (cache : ClassCache α)
    (h : Felt) : ClassCache α × Bool :=
  match cache.lookup h with
  | some _ => (cache, false)
  | none => ((h, compile h) :: cache, true)

/-- Modelled from the spec: a sequence of `get_class` requests executed
one after another (the order the exclusive lock serializes them into),
returning the final cache and the log of class hashes that were actually
compiled. -/
def runGetClasses {α : Type} (compile : Felt → α) (cache : ClassCache α) :
    List Felt → ClassCache α × List Felt
  | [] => (cache, [])
  | h :: hs =>
    let step := getClassOnce compile cache h
    let rest := runGetClasses compile step.1 hs
    (rest.1, if step.2 then h :: rest.2 else rest.2)

/-- Modelled from the spec: the backend call path (`Starknet::call` of
`starknet_core`, not part of src) only supports execution against the
latest chain state and rejects `ByHash` / `ByNumber` block identifiers
with the corresponding unimplemented-block-id error, independent of
whether the hash or number names a real block. -/
def callRejectsNonLatest (b : Backend) : Prop :=
  (∀ h a s cd, b.call (.byHash h) a s cd = .error .BlockIdHashUnimplementedError) ∧
  (∀ n a s cd, b.call (.byNumber n) a s cd = .error .BlockIdNumberUnimplementedError)

/-- Number of occurrences of a class hash in a work log. -/
def countOcc (h : Felt) : List Felt → Nat
  | [] => 0
  | x :: xs => (if x = h then 1 else 0) + countOcc h xs

/-- Concrete backend: one deployed contract 1 at class 2, storage key 3
set to 4 under contract 1, nonce 1 for contract 1, no declared classes. -/
def rawA : StateUpdateRaw :=
  { block_hash := 7
    new_root := 8
    old_root := 9
    deployed_contracts := [(1, 2)]
    declared_classes := []
    cairo_0_declared_classes := []
    nonces := [(1, 1)]
    storage_updates := [(1, [(3, 4)])] }

/-- A populated test backend whose every lookup succeeds. -/
def backendA : Backend :=
  { block_state_update := fun _ => .ok rawA
    get_block_txs_count := fun _ => .ok 5
    call := fun _ _ _ _ => .ok [11, 12]
    get_class := fun _ _ => .ok ⟨0⟩
    get_class_at := fun _ _ => .ok ⟨0⟩
    get_class_hash_at := fun _ _ => .ok 2
    block_number := 3
    chain_id := 1 }

/-- A test backend identical to `backendA` on `block_state_update` but
differing elsewhere. -/
def backendA2 : Backend :=
  { backendA with block_number := 100, chain_id := 23 }

/-- A test backend whose every lookup fails with the catch-all error. -/
def backendErr : Backend :=
  { block_state_update := fun _ => .error .OtherError
    get_block_txs_count := fun _ => .error .OtherError
    call := fun _ _ _ _ => .error .OtherError
    get_class := fun _ _ => .error .OtherError
    get_class_at := fun _ _ => .error .OtherError
    get_class_hash_at := fun _ _ => .error .OtherError
    block_number := 0
    chain_id := 0 }

/-- A test backend reporting that no block exists. -/
def backendNoBlock : Backend :=
  { backendErr with block_state_update := fun _ => .error .NoBlock }

/-- A test backend whose call path reports a missing contract state. -/
def backendNoneState : Backend :=
  { backendErr with
      call := fun _ _ _ _ =>
        .error (.TransactionError (.State (.NoneContractState ⟨5⟩))) }

/-- A test backend whose call path rejects non-latest block identifiers
the way the spec describes the real backend doing. -/
def backendRejects : Backend :=
  { backendErr with
      call := fun id _ _ _ =>
        match id with
        | .byHash _ => .error .BlockIdHashUnimplementedError
        | .byNumber _ => .error .BlockIdNumberUnimplementedError
        | _ => .ok [] }

/-- A test call request. -/
def reqA : FunctionCall :=
  { contract_address := ⟨1⟩, entry_point_selector := 2, calldata := [3] }

/-- A hash already cached is never compiled again by a serialized run. -/
theorem countOcc_runGetClasses_cached {α : Type} (compile : Felt → α)
    (cache : ClassCache α) (hs : List Felt) (h : Felt)
    (hc : (cache.lookup h).isSome = true) :
    countOcc h (runGetClasses compile cache hs).2 = 0 := by
  induction hs generalizing cache with
  | nil => rfl
  | cons x xs ih =>
    simp only [runGetClasses, getClassOnce]
    cases hl : cache.lookup x with
    | some v => simpa using ih cache hc
    | none =>
      have hxh : x ≠ h := by
        intro he
        subst he
        rw [hl] at hc
        simp at hc
      have hc' : (((x, compile x) :: cache).lookup h).isSome = true := by
        have hbe : (h == x) = false := beq_eq_false_iff_ne.mpr (Ne.symm hxh)
        simp [List.lookup, hbe, hc]
      simp [countOcc, hxh, ih _ hc']

/-- A hash never requested is never compiled. -/
theorem countOcc_runGetClasses_notMem {α : Type} (compile : Felt → α)
    (cache : ClassCache α) (hs : List Felt) (h : Felt) (hm : h ∉ hs) :
    countOcc h (runGetClasses compile cache hs).2 = 0 := by
  induction hs generalizing cache with
  | nil => rfl
  | cons x xs ih =>
    have hxh : x ≠ h := fun he => hm (he ▸ List.mem_cons_self x xs)
    have hmx : h ∉ xs := fun hx => hm (List.mem_cons_of_mem x hx)
    simp only [runGetClasses, getClassOnce]
    cases hl : cache.lookup x with
    | some v => simpa using ih _ hmx
    | none => simp [countOcc, hxh, ih _ hmx]

/-- A requested hash not yet cached is compiled exactly once. -/
theorem countOcc_runGetClasses_uncached {α : Type} (compile : Felt → α)
    (cache : ClassCache α) (hs : List Felt) (h : Felt)
    (hc : cache.lookup h = none) (hm : h ∈ hs) :
    countOcc h (runGetClasses compile cache hs).2 = 1 := by
  induction hs generalizing cache with
  | nil => cases hm
  | cons x xs ih =>
    simp only [runGetClasses, getClassOnce]
    by_cases hxh : x = h
    · subst hxh
      rw [hc]
      have hsome : (((x, compile x) :: cache).lookup x).isSome = true := by
        simp [List.lookup]
      simp [countOcc, countOcc_runGetClasses_cached compile _ xs x hsome]
    · have hmx : h ∈ xs := by
        cases hm with
        | head => exact absurd rfl hxh
        | tail _ hx => exact hx
      cases hl : cache.lookup x with
      | some v => simpa using ih _ hc hmx
      | none =>
        have hc' : (((x, compile x) :: cache).lookup h) = none := by
          have hbe : (h == x) = false := beq_eq_false_iff_ne.mpr (Ne.symm hxh)
          simp [List.lookup, hbe, hc]
        simp [countOcc, hxh, ih _ hc' hmx]

/-- A cache entry present before a serialized run is still present after. -/
theorem runGetClasses_lookup_mono {α : Type} (compile : Felt → α)
    (cache : ClassCache α) (hs : List Felt) (h : Felt)
    (hc : (cache.lookup h).isSome = true) :
    ((runGetClasses compile cache hs).1.lookup h).isSome = true := by
  induction hs generalizing cache with
  | nil => exact hc
  | cons x xs ih =>
    simp only [runGetClasses, getClassOnce]
    cases hl : cache.lookup x with
    | some v => simpa using ih cache hc
    | none =>
      have hc' : (((x, compile x) :: cache).lookup h).isSome = true := by
        by_cases hxh : h = x
        · subst hxh
          simp [List.lookup]
        · have hbe : (h == x) = false := beq_eq_false_iff_ne.mpr hxh
          simp [List.lookup, hbe, hc]
      simpa using ih _ hc'

/-- Every requested hash ends up cached after a serialized run. -/
theorem runGetClasses_lookup_mem {α : Type} (compile : Felt → α)
    (cache : ClassCache α) (hs : List Felt) (h : Felt) (hm : h ∈ hs) :
    ((runGetClasses compile cache hs).1.lookup h).isSome = true := by
  induction hs generalizing cache with
  | nil => cases hm
  | cons x xs ih =>
    simp only [runGetClasses, getClassOnce]
    by_cases hxh : h = x
    · subst hxh
      cases hl : cache.lookup h with
      | some v =>
        simpa using runGetClasses_lookup_mono compile cache xs h (by simp [hl])
      | none =>
        have hc' : (((h, compile h) :: cache).lookup h).isSome = true := by
          simp [List.lookup]
        simpa using runGetClasses_lookup_mono compile _ xs h hc'
    · have hmx : h ∈ xs := by
        cases hm with
        | head => exact absurd rfl hxh
        | tail _ hx => exact hx
      cases hl : cache.lookup x with
      | some v => simpa using ih _ hmx
      | none => simpa using ih _ hmx

/-- Expected wire output of `get_state_update` against `backendA`. -/
def suA : StateUpdate :=
  { block_hash := ⟨7⟩
    new_root := ⟨8⟩
    old_root := ⟨9⟩
    state_diff :=
      { deployed_contracts := [{ address := ⟨1⟩, class_hash := 2 }]
        declared_classes := []
        deprecated_declared_classes := []
        nonces := [{ contract_address := ⟨1⟩, nonce := 1 }]
        storage_diffs :=
          [{ address := ⟨1⟩, storage_entries := [{ key := ⟨3⟩, value := ⟨4⟩ }] }]
        replaced_classes := [] } }

/-- C3: every stub endpoint returns exactly its fixed documented
response, for every backend and every well-formed input: the three
BlockNotFound stubs, the ContractNotFound storage stub, the two
TransactionNotFound stubs, the InvalidTransactionIndexInBlock stub, the
ContractError fee stub, the NoBlocks block-hash stub, the
InvalidContinuationToken events stub; and syncing and
pendingTransactions succeed with `false` and the empty sequence. -/
theorem stub_endpoints_fixed (b : Backend) :
    (∀ id, get_block_with_tx_hashes b id = .error .BlockNotFound) ∧
    (∀ id, get_block_with_full_txs b id = .error .BlockNotFound) ∧
    (∀ id ca, get_nonce b id ca = .error .BlockNotFound) ∧
    (∀ ca k id, get_storage_at b ca k id = .error .ContractNotFound) ∧
    (∀ th, get_transaction_by_hash b th = .error .TransactionNotFound) ∧
    (∀ th, get_transaction_receipt_by_hash b th = .error .TransactionNotFound) ∧
    (∀ id i, get_transaction_by_block_id_and_index b id i
      = .error .InvalidTransactionIndexInBlock) ∧
    (∀ id req, estimate_fee b id req = .error .ContractError) ∧
    block_hash_and_number b = .error .NoBlocks ∧
    (∀ f, get_events b f = .error .InvalidContinuationToken) ∧
    syncing b = .ok (.False false) ∧
    pending_transactions b = .ok [] :=
  ⟨fun _ => rfl, fun _ => rfl, fun _ _ => rfl, fun _ _ _ => rfl, fun _ => rfl,
   fun _ => rfl, fun _ _ => rfl, fun _ _ => rfl, rfl, fun _ => rfl, rfl, rfl⟩

/-- C10: blockNumber and chainId never return an error: for every
backend state they succeed with the current block number and with the
chain identifier rendered as a 0x-prefixed hex string. -/
theorem block_number_chain_id_never_fail (b : Backend) :
    block_number b = .ok b.block_number ∧
    chain_id b = .ok (toPrefixedHexStr b.chain_id) ∧
    exceptIsOk (block_number b) = true ∧
    exceptIsOk (chain_id b) = true :=
  ⟨rfl, rfl, rfl, rfl⟩

/-- C5: whenever `get_state_update` succeeds, the returned state diff has
an empty `replaced_classes` sequence, whatever the backend contents. -/
theorem replaced_classes_always_empty (b : Backend) (id : BlockId)
    (su : StateUpdate) (h : get_state_update b id = .ok su) :
    su.state_diff.replaced_classes = [] := by
  unfold get_state_update at h
  split at h
  · exact absurd h (by simp)
  · exact absurd h (by simp)
  · injection h with h'
    subst h'
    rfl

/-- Witness for C5 at a concrete populated backend. -/
theorem replaced_classes_always_empty_witness :
    get_state_update backendA .latest = .ok suA ∧
    suA.state_diff.replaced_classes = [] :=
  ⟨rfl, replaced_classes_always_empty backendA .latest suA rfl⟩

/-- C7: the state-update computation is deterministic: two runs against
backends that agree on the resolved raw snapshot (in particular two runs
against the same unchanged ledger) produce identical wire results. -/
theorem get_state_update_deterministic (b1 b2 : Backend) (id : BlockId)
    (h : b1.block_state_update id = b2.block_state_update id) :
    get_state_update b1 id = get_state_update b2 id := by
  unfold get_state_update
  rw [h]

/-- Witness for C7 at two concrete backends sharing a snapshot. -/
theorem get_state_update_deterministic_witness :
    backendA.block_state_update .latest = backendA2.block_state_update .latest ∧
    get_state_update backendA .latest = get_state_update backendA2 .latest :=
  ⟨rfl, get_state_update_deterministic backendA backendA2 .latest rfl⟩

/-- C8: getBlockTransactionCount forwards the backend count on success
and collapses every backend failure, whatever its kind, to `NoBlocks`. -/
theorem get_block_txs_count_total (b : Backend) (id : BlockId) :
    (∀ c, b.get_block_txs_count id = .ok c → get_block_txs_count b id = .ok c) ∧
    (∀ e, b.get_block_txs_count id = .error e →
      get_block_txs_count b id = .error .NoBlocks) := by
  constructor
  · intro c hc
    unfold get_block_txs_count
    rw [hc]
  · intro e he
    unfold get_block_txs_count
    rw [he]

/-- Witness for C8 at a populated and at a failing backend. -/
theorem get_block_txs_count_total_witness :
    get_block_txs_count backendA .latest = .ok 5 ∧
    get_block_txs_count backendErr .latest = .error .NoBlocks :=
  ⟨(get_block_txs_count_total backendA .latest).1 5 rfl,
   (get_block_txs_count_total backendErr .latest).2 .OtherError rfl⟩

/-- The wire translation `get_state_update` applies to a raw backend
update on the success path (named for reuse in proofs). -/
def wireOf (su : StateUpdateRaw) : StateUpdate :=
  { block_hash := ⟨su.block_hash⟩
    new_root := ⟨su.new_root⟩
    old_root := ⟨su.old_root⟩
    state_diff :=
      { deployed_contracts := su.deployed_contracts.map fun p =>
          { address := ⟨p.1⟩, class_hash := p.2 }
        declared_classes := su.declared_classes.map fun p =>
          { class_hash := p.1, compiled_class_hash := ⟨p.2⟩ }
        deprecated_declared_classes := su.cairo_0_declared_classes
        nonces := su.nonces.map fun p =>
          { contract_address := ⟨p.1⟩, nonce := p.2 }
        storage_diffs := su.storage_updates.map fun p =>
          { address := ⟨p.1⟩
            storage_entries := p.2.map fun kv =>
              { key := ⟨kv.1⟩, value := ⟨kv.2⟩ } }
        replaced_classes := [] } }

/-- On backend success, `get_state_update` returns the wire translation. -/
theorem gsu_ok (b : Backend) (id : BlockId) (raw : StateUpdateRaw)
    (hb : b.block_state_update id = .ok raw) :
    get_state_update b id = .ok (wireOf raw) := by
  unfold get_state_update
  rw [hb]
  rfl

/-- On the backend's no-block report, `get_state_update` returns
`BlockNotFound`. -/
theorem gsu_noblock (b : Backend) (id : BlockId)
    (hb : b.block_state_update id = .error .NoBlock) :
    get_state_update b id = .error .BlockNotFound := by
  unfold get_state_update
  rw [hb]

/-- On any other backend error, `get_state_update` wraps the cause in
`StarknetDevnetError`. -/
theorem gsu_err (b : Backend) (id : BlockId) (e : Error)
    (hb : b.block_state_update id = .error e) (hne : e ≠ .NoBlock) :
    get_state_update b id = .error (.StarknetDevnetError e) := by
  unfold get_state_update
  rw [hb]
  cases e with
  | NoBlock => exact absurd rfl hne
  | TransactionError te => rfl
  | BlockIdHashUnimplementedError => rfl
  | BlockIdNumberUnimplementedError => rfl
  | OtherError => rfl

/-- C1: `get_state_update` returns `BlockNotFound` exactly when the
backend reports no such block; any other backend error is wrapped as
`StarknetDevnetError` carrying the original cause; and nothing else
comes out of the error path. -/
theorem get_state_update_error_mapping (b : Backend) (id : BlockId) :
    (get_state_update b id = .error .BlockNotFound ↔
      b.block_state_update id = .error .NoBlock) ∧
    (∀ e, b.block_state_update id = .error e → e ≠ .NoBlock →
      get_state_update b id = .error (.StarknetDevnetError e)) ∧
    (∀ ae, get_state_update b id = .error ae →
      ae = .BlockNotFound ∨
      ∃ e, ae = .StarknetDevnetError e ∧ b.block_state_update id = .error e) := by
  cases hb : b.block_state_update id with
  | ok raw =>
    have hg := gsu_ok b id raw hb
    refine ⟨⟨fun h => ?_, fun h => ?_⟩, fun e he hne => ?_, fun ae hae => ?_⟩
    · rw [hg] at h
      exact absurd h (by simp)
    · exact absurd h (by simp)
    · exact absurd he (by simp)
    · rw [hg] at hae
      exact absurd hae (by simp)
  | error e =>
    by_cases hne : e = .NoBlock
    · subst hne
      have hg := gsu_noblock b id hb
      refine ⟨⟨fun _ => rfl, fun _ => hg⟩, fun e' he' hne' => ?_, fun ae hae => ?_⟩
      · injection he' with h2
        exact absurd h2.symm hne'
      · rw [hg] at hae
        injection hae with h2
        exact Or.inl h2.symm
    · have hg := gsu_err b id e hb hne
      refine ⟨⟨fun h => ?_, fun h => ?_⟩, fun e' he' hne' => ?_, fun ae hae => ?_⟩
      · rw [hg] at h
        injection h with h2
        exact absurd h2 (by simp)
      · injection h with h2
        exact absurd h2 hne
      · injection he' with h2
        subst h2
        exact hg
      · rw [hg] at hae
        injection hae with h2
        exact Or.inr ⟨e, h2.symm, rfl⟩

/-- Witness for C1 at a no-block backend and at an unclassified-error
backend. -/
theorem get_state_update_error_mapping_witness :
    get_state_update backendNoBlock .latest = .error .BlockNotFound ∧
    get_state_update backendErr .latest = .error (.StarknetDevnetError .OtherError) :=
  ⟨(get_state_update_error_mapping backendNoBlock .latest).1.mpr rfl,
   (get_state_update_error_mapping backendErr .latest).2.1 .OtherError rfl
     (by decide)⟩

/-- C4: when the backend's raw update holds exactly one deployed
contract A at class C, one storage write K=V under A, nonce 1 for A and
no declared classes, `get_state_update` returns the state diff with
exactly those entries, every value unchanged and only re-wrapped in its
hex wrapper, and the three remaining sequences empty. -/
theorem get_state_update_scenario (b : Backend) (id : BlockId)
    (A C K V bh nr oldr : Felt)
    (h : b.block_state_update id =
      .ok { block_hash := bh, new_root := nr, old_root := oldr,
            deployed_contracts := [(A, C)], declared_classes := [],
            cairo_0_declared_classes := [], nonces := [(A, 1)],
            storage_updates := [(A, [(K, V)])] }) :
    get_state_update b id =
      .ok { block_hash := ⟨bh⟩, new_root := ⟨nr⟩, old_root := ⟨oldr⟩,
            state_diff :=
              { deployed_contracts := [{ address := ⟨A⟩, class_hash := C }],
                declared_classes := [],
                deprecated_declared_classes := [],
                nonces := [{ contract_address := ⟨A⟩, nonce := 1 }],
                storage_diffs :=
                  [{ address := ⟨A⟩
                     storage_entries := [{ key := ⟨K⟩, value := ⟨V⟩ }] }],
                replaced_classes := [] } } := by
  rw [gsu_ok b id _ h]
  rfl

/-- Witness for C4 at the concrete populated backend. -/
theorem get_state_update_scenario_witness :
    get_state_update backendA .latest =
      .ok { block_hash := ⟨7⟩, new_root := ⟨8⟩, old_root := ⟨9⟩,
            state_diff :=
              { deployed_contracts := [{ address := ⟨1⟩, class_hash := 2 }],
                declared_classes := [],
                deprecated_declared_classes := [],
                nonces := [{ contract_address := ⟨1⟩, nonce := 1 }],
                storage_diffs :=
                  [{ address := ⟨1⟩
                     storage_entries := [{ key := ⟨3⟩, value := ⟨4⟩ }] }],
                replaced_classes := [] } } :=
  get_state_update_scenario backendA .latest 1 2 3 4 7 8 9 rfl

/-- C2: classification of every outcome of starknet_call: a
`NoneContractState` backend failure becomes `ContractNotFound`; against
a backend conforming to the spec's latest-only call path, `ByHash` and
`ByNumber` identifiers always yield `OnlyLatestBlock`; every other
backend failure becomes the generic `ContractError`; a backend success
returns the result vector re-wrapped; and `ContractNotFound` is returned
exactly for the no-contract-state condition, so it is never conflated
with `ContractError`. -/
theorem call_error_classification (b : Backend) (req : FunctionCall) :
    (∀ id a,
      b.call id ⟨req.contract_address.val⟩ req.entry_point_selector req.calldata
        = .error (.TransactionError (.State (.NoneContractState a))) →
      call b id req = .error .ContractNotFound) ∧
    (callRejectsNonLatest b →
      (∀ h, call b (.byHash h) req = .error .OnlyLatestBlock) ∧
      (∀ n, call b (.byNumber n) req = .error .OnlyLatestBlock)) ∧
    (∀ id e,
      b.call id ⟨req.contract_address.val⟩ req.entry_point_selector req.calldata
        = .error e →
      (∀ a, e ≠ .TransactionError (.State (.NoneContractState a))) →
      e ≠ .BlockIdHashUnimplementedError →
      e ≠ .BlockIdNumberUnimplementedError →
      call b id req = .error .ContractError) ∧
    (∀ id r,
      b.call id ⟨req.contract_address.val⟩ req.entry_point_selector req.calldata
        = .ok r →
      call b id req = .ok (r.map FeltHex.mk)) ∧
    (∀ id, call b id req = .error .ContractNotFound ↔
      ∃ a,
        b.call id ⟨req.contract_address.val⟩ req.entry_point_selector req.calldata
          = .error (.TransactionError (.State (.NoneContractState a)))) := by
  refine ⟨?_, ?_, ?_, ?_, ?_⟩
  · intro id a hc
    unfold call
    rw [hc]
  · intro hrej
    constructor
    · intro h
      unfold call
      rw [hrej.1 h ⟨req.contract_address.val⟩ req.entry_point_selector req.calldata]
    · intro n
      unfold call
      rw [hrej.2 n ⟨req.contract_address.val⟩ req.entry_point_selector req.calldata]
  · intro id e he hna hnh hnn
    unfold call
    rw [he]
    cases e with
    | NoBlock => rfl
    | TransactionError te =>
      cases te with
      | State se =>
        cases se with
        | NoneContractState a => exact absurd rfl (hna a)
        | OtherState => rfl
      | OtherTransaction => rfl
    | BlockIdHashUnimplementedError => exact absurd rfl hnh
    | BlockIdNumberUnimplementedError => exact absurd rfl hnn
    | OtherError => rfl
  · intro id r hr
    unfold call
    rw [hr]
  · intro id
    constructor
    · intro h
      unfold call at h
      cases hc : b.call id ⟨req.contract_address.val⟩ req.entry_point_selector
          req.calldata with
      | ok r =>
        rw [hc] at h
        exact absurd h (by simp)
      | error e =>
        rw [hc] at h
        cases e with
        | NoBlock => exact absurd h (by simp)
        | TransactionError te =>
          cases te with
          | State se =>
            cases se with
            | NoneContractState a => exact ⟨a, rfl⟩
            | OtherState => exact absurd h (by simp)
          | OtherTransaction => exact absurd h (by simp)
        | BlockIdHashUnimplementedError => exact absurd h (by simp)
        | BlockIdNumberUnimplementedError => exact absurd h (by simp)
        | OtherError => exact absurd h (by simp)
    · intro ha
      obtain ⟨a, ha⟩ := ha
      unfold call
      rw [ha]

/-- Witness for C2 hitting each classification arm at concrete inputs. -/
theorem call_error_classification_witness :
    call backendNoneState .latest reqA = .error .ContractNotFound ∧
    call backendRejects (.byHash 77) reqA = .error .OnlyLatestBlock ∧
    call backendRejects (.byNumber 9) reqA = .error .OnlyLatestBlock ∧
    call backendErr .latest reqA = .error .ContractError ∧
    call backendA .latest reqA = .ok [⟨11⟩, ⟨12⟩] :=
  ⟨(call_error_classification backendNoneState reqA).1 .latest ⟨5⟩ rfl,
   ((call_error_classification backendRejects reqA).2.1
     ⟨fun _ _ _ _ => rfl, fun _ _ _ _ => rfl⟩).1 77,
   ((call_error_classification backendRejects reqA).2.1
     ⟨fun _ _ _ _ => rfl, fun _ _ _ _ => rfl⟩).2 9,
   (call_error_classification backendErr reqA).2.2.1 .latest .OtherError rfl
     (fun _ => by simp) (by simp) (by simp),
   (call_error_classification backendA reqA).2.2.2.1 .latest [11, 12] rfl⟩

/-- The contract-address wrapper is injective. -/
theorem contractAddressHex_mk_injective :
    Function.Injective ContractAddressHex.mk :=
  fun _ _ h => congrArg ContractAddressHex.val h

/-- The storage-key wrapper is injective. -/
theorem patriciaKeyHex_mk_injective :
    Function.Injective PatriciaKeyHex.mk :=
  fun _ _ h => congrArg PatriciaKeyHex.val h

/-- C6: assuming the backend enumerates genuine maps (unique keys per
category, unique storage keys per contract), the emitted state diff has
exactly one storage-diff entry per changed address, no address twice,
and unique key components in every sub-sequence. -/
theorem state_diff_unique_keys (b : Backend) (id : BlockId) (raw : StateUpdateRaw)
    (hb : b.block_state_update id = .ok raw)
    (hs : (raw.storage_updates.map Prod.fst).Nodup)
    (hd : (raw.deployed_contracts.map Prod.fst).Nodup)
    (hdc : (raw.declared_classes.map Prod.fst).Nodup)
    (hn : (raw.nonces.map Prod.fst).Nodup)
    (hin : ∀ p ∈ raw.storage_updates, (p.2.map Prod.fst).Nodup) :
    ∃ su, get_state_update b id = .ok su ∧
      (su.state_diff.storage_diffs.map fun d => d.address).Nodup ∧
      (∀ a, a ∈ raw.storage_updates.map Prod.fst →
        (su.state_diff.storage_diffs.map fun d => d.address).count ⟨a⟩ = 1) ∧
      (su.state_diff.deployed_contracts.map fun d => d.address).Nodup ∧
      (su.state_diff.declared_classes.map fun c => c.class_hash).Nodup ∧
      (su.state_diff.nonces.map fun c => c.contract_address).Nodup ∧
      (∀ d ∈ su.state_diff.storage_diffs,
        (d.storage_entries.map fun en => en.key).Nodup) := by
  refine ⟨wireOf raw, gsu_ok b id raw hb, ?_, ?_, ?_, ?_, ?_, ?_⟩
  · have h1 : ((wireOf raw).state_diff.storage_diffs.map fun d => d.address)
        = (raw.storage_updates.map Prod.fst).map ContractAddressHex.mk := by
      simp [wireOf, List.map_map]
    rw [h1]
    exact hs.map contractAddressHex_mk_injective
  · intro a ha
    have h1 : ((wireOf raw).state_diff.storage_diffs.map fun d => d.address)
        = (raw.storage_updates.map Prod.fst).map ContractAddressHex.mk := by
      simp [wireOf, List.map_map]
    rw [h1]
    rw [List.count_map_of_injective _ ContractAddressHex.mk
      contractAddressHex_mk_injective a]
    exact List.count_eq_one_of_mem hs ha
  · have h1 : ((wireOf raw).state_diff.deployed_contracts.map fun d => d.address)
        = (raw.deployed_contracts.map Prod.fst).map ContractAddressHex.mk := by
      simp [wireOf, List.map_map]
    rw [h1]
    exact hd.map contractAddressHex_mk_injective
  · have h1 : ((wireOf raw).state_diff.declared_classes.map fun c => c.class_hash)
        = raw.declared_classes.map Prod.fst := by
      simp [wireOf, List.map_map]
    rw [h1]
    exact hdc
  · have h1 : ((wireOf raw).state_diff.nonces.map fun c => c.contract_address)
        = (raw.nonces.map Prod.fst).map ContractAddressHex.mk := by
      simp [wireOf, List.map_map]
    rw [h1]
    exact hn.map contractAddressHex_mk_injective
  · intro d hdm
    simp only [wireOf, List.mem_map] at hdm
    obtain ⟨p, hp, rfl⟩ := hdm
    have h1 : ((p.2.map fun kv =>
          (⟨⟨kv.1⟩, ⟨kv.2⟩⟩ : StorageEntry)).map fun en => en.key)
        = (p.2.map Prod.fst).map PatriciaKeyHex.mk := by
      simp [List.map_map]
    simp only []
    rw [h1]
    exact (hin p hp).map patriciaKeyHex_mk_injective

/-- Witness for C6 at the concrete populated backend. -/
theorem state_diff_unique_keys_witness :
    ∃ su, get_state_update backendA .latest = .ok su ∧
      (su.state_diff.storage_diffs.map fun d => d.address).Nodup ∧
      (∀ a, a ∈ rawA.storage_updates.map Prod.fst →
        (su.state_diff.storage_diffs.map fun d => d.address).count ⟨a⟩ = 1) ∧
      (su.state_diff.deployed_contracts.map fun d => d.address).Nodup ∧
      (su.state_diff.declared_classes.map fun c => c.class_hash).Nodup ∧
      (su.state_diff.nonces.map fun c => c.contract_address).Nodup ∧
      (∀ d ∈ su.state_diff.storage_diffs,
        (d.storage_entries.map fun en => en.key).Nodup) :=
  state_diff_unique_keys backendA .latest rawA rfl (by decide) (by decide)
    (by decide) (by decide) (by decide)

/-- C9: the three class-lookup endpoints acquire the exclusive (writer)
side of the ledger lock while every other endpoint never does (the five
backed reads take the shared side); an exclusive holder excludes every
other lock-touching query; and under the serialized execution the
exclusive lock enforces, any sequence of `get_class` requests
materializes the compiled-artifact cache entry of each requested class
hash exactly once, with the entry present afterwards (no duplicate work,
no lost update). -/
theorem class_queries_serialize_cache_once :
    (lockAccess .getClass = .exclusive ∧
     lockAccess .getClassAt = .exclusive ∧
     lockAccess .getClassHashAt = .exclusive) ∧
    (lockAccess .getStateUpdate = .shared ∧
     lockAccess .getBlockTxsCount = .shared ∧
     lockAccess .call = .shared ∧
     lockAccess .blockNumber = .shared ∧
     lockAccess .chainId = .shared) ∧
    (∀ e : Endpoint, e ≠ .getClass → e ≠ .getClassAt → e ≠ .getClassHashAt →
      lockAccess e ≠ .exclusive) ∧
    (∀ a : LockAccess, a ≠ .noLock → canAcquire .exclusiveWrite a = false) ∧
    (∀ n : Nat, canAcquire (.sharedRead n) .exclusive = false) ∧
    (∀ (α : Type) (compile : Felt → α) (hs : List Felt) (h : Felt), h ∈ hs →
      countOcc h (runGetClasses compile [] hs).2 = 1 ∧
      ((runGetClasses compile [] hs).1.lookup h).isSome = true) := by
  refine ⟨⟨rfl, rfl, rfl⟩, ⟨rfl, rfl, rfl, rfl, rfl⟩, ?_, ?_, ?_, ?_⟩
  · intro e h1 h2 h3
    cases e <;>
      first
      | decide
      | exact absurd rfl h1
      | exact absurd rfl h2
      | exact absurd rfl h3
  · intro a ha
    cases a with
    | shared => rfl
    | exclusive => rfl
    | noLock => exact absurd rfl ha
  · intro n
    rfl
  · intro α compile hs h hm
    exact ⟨countOcc_runGetClasses_uncached compile [] hs h rfl hm,
           runGetClasses_lookup_mem compile [] hs h hm⟩

/-- Witness for C9: concrete lock-mode facts and a concrete serialized
run with a repeated class hash compiled once. -/
theorem class_queries_serialize_cache_once_witness :
    lockAccess .getStateUpdate ≠ .exclusive ∧
    canAcquire .exclusiveWrite .shared = false ∧
    canAcquire (.sharedRead 2) .exclusive = false ∧
    countOcc 5 (runGetClasses (fun _ => (0 : Nat)) [] [5, 5, 6]).2 = 1 ∧
    ((runGetClasses (fun _ => (0 : Nat)) [] [5, 5, 6]).1.lookup 5).isSome = true :=
  have t := class_queries_serialize_cache_once
  ⟨t.2.2.1 .getStateUpdate (by decide) (by decide) (by decide),
   t.2.2.2.1 .shared (by decide),
   t.2.2.2.2.1 2,
   (t.2.2.2.2.2 Nat (fun _ => 0) [5, 5, 6] 5 (by decide)).1,
   (t.2.2.2.2.2 Nat (fun _ => 0) [5, 5, 6] 5 (by decide)).2⟩
